import Mathlib

/-!
# Verification of the `watchers` change-to-commit pipeline

Shallow embedding of the core of the `watchers` repository (a file watcher
that converts bursts of file-system activity into git commits) and proofs
about it.  The embedding follows the Rust source:

* `src/git.rs`    — `open_or_create_repo`, `get_changed_files`,
  `handle_event`, `create_commit`, `get_commit_message`, `push_commits`;
* `src/debouncer.rs` — the `Debouncer` and its timer threads, modelled as a
  discrete timed state machine;
* `src/watcher.rs` / `src/file_utils.rs` — the event filter of the watch
  loop (`was_modification`, `is_git_file`, `is_git_ignored`).

Effects that cannot live in a shallow embedding (the file system, libgit2's
object store, the network) are abstracted into explicit result fields of the
state (`Repo.statusesResult`, `Repo.pushResult`, …); everything the claims
talk about — control flow, message formatting, parent selection, refspec
construction, error propagation, `unwrap` panics — is embedded faithfully.
-/

set_option autoImplicit false

deriving instance DecidableEq for Except

namespace Watchers

/-- Git-level errors as seen through `git2::Error`.  `notFound` models the
`ENOTFOUND` class (e.g. a missing config entry); `generic` stands for any
other backend failure. -/
inductive GitError where
  | notFound
  | generic
  deriving DecidableEq

/-- The subset of `git2::Status` working-tree flags that the code inspects
(`Status::WT_DELETED`, `Status::WT_MODIFIED`, `Status::WT_NEW`).  A flag set
may contain several of these at once, exactly as the bitflags can. -/
structure GitStatus where
  wt_deleted : Bool
  wt_modified : Bool
  wt_new : Bool
  deriving DecidableEq

/-- One entry of `git2::Statuses`: `path()` returns `Option<&str>` (`none`
models a non-UTF-8 path) together with the status flag set. -/
structure StatusEntry where
  path : Option String
  status : GitStatus
  deriving DecidableEq

/-- The repository configuration as consulted by `create_commit`.
`Config::get_entry(key)` in git2 errors when the key is absent and otherwise
yields an entry whose `value()` is `Option<&str>` (`none` for a non-UTF-8
value).  Hence each field is `Option (Option String)`: the outer `none`
models an absent entry (lookup error), the inner option the entry's value. -/
structure GitConfig where
  user_name : Option (Option String)
  user_email : Option (Option String)
  deriving DecidableEq

/-- A git commit object as produced by `repo.commit`: object id, parent ids,
message, signature fields, and the tree written from the index. -/
structure Commit where
  id : Nat
  parents : List Nat
  message : String
  authorName : String
  authorEmail : String
  tree : Nat
  deriving DecidableEq

/-- State of a registered submodule observed from the parent repository:
the submodule's own working-tree status and its current head commit id.
The Rust code never touches submodules (`get_changed_files` carries a
`TODO: submodules` comment), so the embedding threads this state through
unchanged. -/
structure SubmoduleState where
  statuses : List StatusEntry
  headOid : Option Nat
  deriving DecidableEq

/-- A repository handle together with the oracle results of the effectful
backend calls made during one firing of `handle_event`:

* `config` — the repo configuration read by `create_commit`;
* `head` — the commit `repo.head()?.peel_to_commit()?` would yield
  (`none` when the head is unborn, i.e. `repo.head()` errors);
* `workTree` — the tree id `index.write_tree()` produces after
  `index.add_all(["*"], …)`;
* `nextOid` — the id the next created commit object receives;
* `statusesResult` — the result of `repo.statuses(...)` in
  `get_changed_files`;
* `submodules` — the registered submodules and their state;
* `pushResult` — the outcome of the network part of `push_commits`. -/
structure Repo where
  config : GitConfig
  head : Option Commit
  workTree : Nat
  nextOid : Nat
  statusesResult : Except GitError (List StatusEntry)
  submodules : List SubmoduleState
  pushResult : Except GitError Unit
  deriving DecidableEq

/-- `open_or_create_repo` (src/git.rs:103-108): try `Repository::open`; on
any open error fall through to `Repository::init`.  The two effectful calls
are passed in as their results. -/
def open_or_create_repo (openResult initResult : Except GitError Repo) :
    Except GitError Repo :=
  match openResult with
  | .ok repo => .ok repo
  | .error _ => initResult

/-- Rust's `Vec::join(sep)` on a list of strings. -/
def joinSep (sep : String) : List String → String
  | [] => ""
  | [x] => x
  | x :: y :: rest => x ++ sep ++ joinSep sep (y :: rest)

/-- The path shown for a status entry: `file.path().unwrap_or("Unknown file")`
(src/git.rs:386). -/
def entryPath (e : StatusEntry) : String :=
  e.path.getD "Unknown file"

/-- Core of `get_commit_message` (src/git.rs:347-399) once the three
category lists have been computed: the summary line built by `filter_map`
over the `(action, entries)` pairs joined with `", "`, and the detail blocks
(header line plus two-space-indented paths, kept only when `lines.len() > 1`)
joined with `"\n"`; finally `[summary, desc].join("\n\n")`. -/
def commitMessageCore (deleted modified added : List StatusEntry) : String :=
  let types : List (String × List StatusEntry) :=
    [("Deleted", deleted), ("Modified", modified), ("Added", added)]
  let summary := joinSep ", " (types.filterMap (fun t =>
    if !t.2.isEmpty then some (t.1 ++ " " ++ toString t.2.length) else none))
  let desc := joinSep "\n" (types.filterMap (fun t =>
    let lines := (t.1 ++ ":") :: t.2.map (fun f => "  " ++ entryPath f)
    if lines.length > 1 then some (joinSep "\n" lines) else none))
  joinSep "\n\n" [summary, desc]

/-- `get_commit_message` (src/git.rs:347-399): filter the status entries
into deleted / modified / new by flag containment and format the message. -/
def get_commit_message (changed_files : List StatusEntry) : String :=
  let deleted := changed_files.filter (fun f => f.status.wt_deleted)
  let modified := changed_files.filter (fun f => f.status.wt_modified)
  let newFiles := changed_files.filter (fun f => f.status.wt_new)
  commitMessageCore deleted modified newFiles

/-- `create_commit` (src/git.rs:263-306).  The index/tree steps are the
`workTree` oracle; the config lookups use `?` (so an absent entry aborts
with its error) while a present entry's missing value falls back to
`"Watchers"`; the head decides between a single-parent and a parentless
commit, and `repo.commit(Some("HEAD"), …)` moves the head to the new
commit. -/
def create_commit (repo : Repo) (message : Option String) :
    Except GitError (Commit × Repo) :=
  match repo.config.user_name with
  | none => .error .notFound
  | some nameVal =>
    match repo.config.user_email with
    | none => .error .notFound
    | some emailVal =>
      let sigName := nameVal.getD "Watchers"
      let sigEmail := emailVal.getD "Watchers"
      let msg := message.getD "Autocommit"
      let parents := match repo.head with
        | some parent => [parent.id]
        | none => []
      let c : Commit :=
        { id := repo.nextOid, parents := parents, message := msg,
          authorName := sigName, authorEmail := sigEmail,
          tree := repo.workTree }
      .ok (c, { repo with head := some c, nextOid := repo.nextOid + 1 })

/-- Result of running a piece of Rust code that may `panic!` (via
`.unwrap()` on an `Err`): either a normal value or a panic tagged with the
call site. -/
inductive RunResult (α : Type) where
  | ok (a : α)
  | panicked (site : String)
  deriving DecidableEq

/-- Observable outcome of one firing of `handle_event`. -/
inductive Outcome where
  /-- `open_or_create_repo` failed; "Failed to open repository" printed. -/
  | openFailed (e : GitError)
  /-- empty status set: early return, nothing done. -/
  | noChanges
  /-- a commit was created; whether a push was attempted and how it went
  (`some e` means "Failed to push" was printed). -/
  | committed (pushAttempted : Bool) (pushError : Option GitError)
  deriving DecidableEq

/-- `EventContext` (src/git.rs:73-78) restricted to the field `handle_event`
actually reads beyond the repo path: the `auto_push` setting. -/
structure EventContext where
  repo_path : String
  auto_push : Bool
  deriving DecidableEq

/-- `handle_event` (src/git.rs:199-224).  `open_or_create_repo`'s result is
passed in (it depends on the file system).  A status-read failure hits the
`.unwrap()` inside `get_changed_files` (src/git.rs:153) and a commit failure
hits the `.unwrap()` on `create_commit` (src/git.rs:214): both are panics,
not logged returns.  An open failure and a push failure are printed and
control continues.  The returned repo is the post-state (`none` when no
repository was obtained). -/
def handle_event (openResult : Except GitError Repo) (context : EventContext) :
    RunResult (Outcome × Option Repo) :=
  match openResult with
  | .error e => .ok (.openFailed e, none)
  | .ok repo =>
    match repo.statusesResult with
    | .error _ => .panicked "get_changed_files"
    | .ok changed_files =>
      if changed_files.isEmpty then
        .ok (.noChanges, some repo)
      else
        let message := get_commit_message changed_files
        match create_commit repo (some message) with
        | .error _ => .panicked "create_commit"
        | .ok (_, repo2) =>
          if context.auto_push then
            match repo2.pushResult with
            | .ok _ => .ok (.committed true none, some repo2)
            | .error e => .ok (.committed true (some e), some repo2)
          else
            .ok (.committed false none, some repo2)

/-- Split a character list at its first `'/'`: `none` when there is no
slash, otherwise the characters before it and everything after it. -/
def splitFirstSlash : List Char → Option (List Char × List Char)
  | [] => none
  | c :: cs =>
    if c = '/' then some ([], cs)
    else
      match splitFirstSlash cs with
      | none => none
      | some (a, b) => some (c :: a, b)

/-- Rust `s.splitn(2, '/')`: at most two pieces, split at the first `/`. -/
def splitn2Slash (s : String) : List String :=
  match splitFirstSlash s.data with
  | none => [s]
  | some (a, b) => [String.mk a, String.mk b]

/-- The remote name and refspec a push will use. -/
structure PushPlan where
  remote : String
  refspec : String
  deriving DecidableEq

/-- Remote/branch resolution of `push_commits` (src/git.rs:438-453):
`branch_name` is the head's shorthand defaulting to `"main"`; with an
upstream, its name (defaulting to `"origin/main"` when non-UTF-8) is split
on the first `/` into remote and remote branch, the remote branch falling
back to `branch_name` when there is no `/`; without an upstream the remote
is `"origin"` and the remote branch is `branch_name`.  The refspec is
`refs/heads/<remote_branch>:refs/heads/<remote_branch>`.

`upstream = none` models `branch.upstream()` erring (no upstream);
`upstream = some v` models a configured upstream whose `name()?` is `v`. -/
def resolvePush (headShorthand : Option String)
    (upstream : Option (Option String)) : PushPlan :=
  let branch_name := headShorthand.getD "main"
  let pair : String × String :=
    match upstream with
    | some uname =>
      let upstream_name := uname.getD "origin/main"
      let parts := splitn2Slash upstream_name
      (parts.headD "", ((parts.get? 1).getD branch_name))
    | none => ("origin", branch_name)
  { remote := pair.1,
    refspec := "refs/heads/" ++ pair.2 ++ ":refs/heads/" ++ pair.2 }

/-!
## Debounce engine (src/debouncer.rs)

`Debouncer::on_event` stores the new context in `pending_context`, cancels
the running timer thread (setting that thread's cancel flag under its lock
and notifying it, so the old thread can never fire afterwards), and spawns a
fresh timer with a fresh cancel flag that waits `delay` and, on an
uncancelled timeout, `take`s the pending context and invokes the callback.

We model this as a discrete timed state machine.  Time is `Nat`.  A trace is
a time-ordered list of `on_event` calls `(t, ctx)`.  The state tracks the
pending context, the armed timer's absolute deadline, and the list of
callback invocations `(fire time, context)` so far.  Processing an `on_event`
at time `t` first resolves the armed timer: if its deadline already passed
(`d ≤ t`) it has fired, consuming the pending context; otherwise the call
cancels it.  Then the call stores its context and arms a timer for
`t + delay`.  After the last call, a still-armed timer fires at its
deadline. -/

/-- Debouncer state between `on_event` calls: `pending_context`, the armed
timer's deadline (if a live timer exists), and the callback invocations
accumulated so far. -/
structure DState where
  pending : Option EventContext
  deadline : Option Nat
  fired : List (Nat × EventContext)
  deriving DecidableEq

/-- One `on_event` call at time `e.1` with context `e.2`: resolve the armed
timer (fire if its deadline has passed, else cancel it), then store the
context and arm a timer for `e.1 + delay`. -/
def stepEvent (delay : Nat) (s : DState) (e : Nat × EventContext) : DState :=
  let resolved : DState :=
    match s.deadline, s.pending with
    | some d, some p =>
      if d ≤ e.1 then
        { pending := none, deadline := none, fired := s.fired ++ [(d, p)] }
      else
        { pending := s.pending, deadline := none, fired := s.fired }
    | some _, none => { pending := none, deadline := none, fired := s.fired }
    | none, _ => s
  { pending := some e.2, deadline := some (e.1 + delay),
    fired := resolved.fired }

/-- After the last call: a still-armed timer with a pending context fires at
its deadline. -/
def finishDebounce (s : DState) : List (Nat × EventContext) :=
  match s.deadline, s.pending with
  | some d, some p => s.fired ++ [(d, p)]
  | _, _ => s.fired

/-- The callback invocations produced by a time-ordered trace of `on_event`
calls on a fresh `Debouncer` with the given delay. -/
def runDebouncer (delay : Nat) (events : List (Nat × EventContext)) :
    List (Nat × EventContext) :=
  finishDebounce (events.foldl (stepEvent delay) ⟨none, none, []⟩)

/-- The last element of a trace, if any. -/
def lastEvent : List (Nat × EventContext) → Option (Nat × EventContext)
  | [] => none
  | [e] => some e
  | _ :: e :: rest => lastEvent (e :: rest)

/-- Successive `on_event` calls are in strictly increasing time order and
each arrives less than `delay` after the previous one. -/
def closelySpaced (delay : Nat) : List (Nat × EventContext) → Prop
  | [] => True
  | [_] => True
  | a :: b :: rest => a.1 < b.1 ∧ b.1 < a.1 + delay ∧ closelySpaced delay (b :: rest)

/-- Every event in the trace arrives strictly before the currently armed
deadline `d` (so it cancels rather than races the timer), and, inductively,
before the deadline its own timer arms. -/
def spacedBelow (delay : Nat) : Nat → List (Nat × EventContext) → Prop
  | _, [] => True
  | d, e :: rest => e.1 < d ∧ spacedBelow delay (e.1 + delay) rest

/-!
## Event filter of the watch loop (src/watcher.rs, src/file_utils.rs)
-/

/-- `notify::EventKind` as matched by `was_modification`. -/
inductive EventKind where
  | any
  | access
  | create
  | modify
  | remove
  | other
  deriving DecidableEq

/-- A raw file-system notification: a kind and the associated paths, each
path a list of components. -/
structure FsEvent where
  kind : EventKind
  paths : List (List String)
  deriving DecidableEq

/-- `was_modification` (src/file_utils.rs:5-10): only remove/create/modify
kinds qualify. -/
def was_modification (ev : FsEvent) : Bool :=
  match ev.kind with
  | .remove => true
  | .create => true
  | .modify => true
  | _ => false

/-- `is_git_file` (src/watcher.rs:47-57): an empty path list yields `false`;
otherwise true iff some path has a component equal to `".git"`.  (The Rust
function returns `Result<bool>` but never errors.) -/
def is_git_file (paths : List (List String)) : Bool :=
  if paths.isEmpty then false
  else paths.any (fun p => p.any (fun c => c == ".git"))

/-- `is_git_ignored` (src/watcher.rs:88-102): an empty path list yields
`Ok(false)` without consulting the repository; otherwise the result of the
effectful body (`Repository::discover`, `strip_prefix`, `is_path_ignored`),
abstracted here as the oracle `check`. -/
def is_git_ignored (check : List (List String) → Except GitError Bool)
    (paths : List (List String)) : Except GitError Bool :=
  if paths.isEmpty then .ok false
  else check paths

/-- The filter condition of the watch loop (src/watcher.rs:75-82):
`was_modification(&ev) && !is_git_file(&ev.paths)? && !is_git_ignored(&ev.paths)?`,
with Rust's short-circuiting `&&` and `?` propagation.  `Ok true` means the
debouncer is triggered. -/
def eventTriggers (check : List (List String) → Except GitError Bool)
    (ev : FsEvent) : Except GitError Bool :=
  if was_modification ev then
    if is_git_file ev.paths then .ok false
    else
      match is_git_ignored check ev.paths with
      | .error e => .error e
      | .ok ignored => .ok (!ignored)
  else .ok false

/-!
## Spec-side commit-message format

These definitions follow the wording of the specification (§4.3 step 5), to
be compared with `get_commit_message`, which follows the source: the three
action categories in the fixed order Deleted, Modified, Added; a summary
line comma-joining `"<Action> <count>"` with zero-count categories omitted;
a blank line; then, for each non-empty category, a block of a `"<Action>:"`
line followed by one two-space-indented line per path, blocks separated by
newlines. -/

/-- The three categories in their fixed order with the displayed path of
each member, as the spec describes them. -/
def specCats (entries : List StatusEntry) : List (String × List String) :=
  [("Deleted", (entries.filter (fun f => f.status.wt_deleted)).map entryPath),
   ("Modified", (entries.filter (fun f => f.status.wt_modified)).map entryPath),
   ("Added", (entries.filter (fun f => f.status.wt_new)).map entryPath)]

/-- Spec summary line: comma-joined `"<Action> <count>"`, zero-count
categories omitted. -/
def specSummary (cats : List (String × List String)) : String :=
  joinSep ", "
    ((cats.filter (fun c => !c.2.isEmpty)).map
      (fun c => c.1 ++ " " ++ toString c.2.length))

/-- Spec detail block for one category: a `"<Action>:"` line followed by one
two-space-indented line per path. -/
def specBlock (action : String) (paths : List String) : String :=
  joinSep "\n" ((action ++ ":") :: paths.map (fun p => "  " ++ p))

/-- Spec detail section: blocks of the non-empty categories, separated by
newlines. -/
def specDetail (cats : List (String × List String)) : String :=
  joinSep "\n" ((cats.filter (fun c => !c.2.isEmpty)).map
    (fun c => specBlock c.1 c.2))

/-- The whole spec-side message: summary, blank line, details. -/
def specMessage (entries : List StatusEntry) : String :=
  specSummary (specCats entries) ++ "\n\n" ++ specDetail (specCats entries)

/-!
## Concrete fixtures used by witnesses and counterexamples
-/

/-- A status entry whose working tree copy was deleted. -/
def entryDeleted (p : String) : StatusEntry :=
  { path := some p, status := { wt_deleted := true, wt_modified := false, wt_new := false } }

/-- A status entry whose working tree copy was modified. -/
def entryModified (p : String) : StatusEntry :=
  { path := some p, status := { wt_deleted := false, wt_modified := true, wt_new := false } }

/-- A status entry for a newly untracked file. -/
def entryAdded (p : String) : StatusEntry :=
  { path := some p, status := { wt_deleted := false, wt_modified := false, wt_new := true } }

/-- The status set of the spec's worked example:
`{deleted: [a], modified: [b,c], added: []}`. -/
def exampleStatuses : List StatusEntry :=
  [entryDeleted "a", entryModified "b", entryModified "c"]

/-- A configuration with both identity entries present and valued. -/
def cfgFull : GitConfig :=
  { user_name := some (some "Alice"), user_email := some (some "alice@example.com") }

/-- An existing head commit for fixtures. -/
def commit0 : Commit :=
  { id := 5, parents := [], message := "init",
    authorName := "Alice", authorEmail := "alice@example.com", tree := 1 }

/-- A repository with an existing head commit and a clean oracle. -/
def repoA : Repo :=
  { config := cfgFull, head := some commit0, workTree := 42, nextOid := 9,
    statusesResult := .ok [entryAdded "notes/a.txt"], submodules := [],
    pushResult := .ok () }

/-- The commit `create_commit repoA (some "m")` builds. -/
def commitB : Commit :=
  { id := 9, parents := [5], message := "m",
    authorName := "Alice", authorEmail := "alice@example.com", tree := 42 }

/-- `repoA` after that commit. -/
def repoA2 : Repo :=
  { repoA with head := some commitB, nextOid := 10 }

/-- A repository whose configuration lacks the `user.name` entry. -/
def repoNoName : Repo :=
  { repoA with config := { user_name := none, user_email := some (some "alice@example.com") } }

/-- A repository whose identity entries exist but carry no (UTF-8) value. -/
def repoBlankIdentity : Repo :=
  { repoA with config := { user_name := some none, user_email := some none } }

/-- A repository whose status read fails. -/
def repoBadStatus : Repo :=
  { repoA with statusesResult := .error .generic }

/-- A dirty submodule: non-empty working-tree status, head at commit 7. -/
def subDirty : SubmoduleState :=
  { statuses := [entryModified "sub/file.txt"], headOid := some 7 }

/-- A repository with changes of its own and one dirty registered
submodule. -/
def repoWithSub : Repo :=
  { repoA with submodules := [subDirty] }

/-- An event context with auto-push disabled. -/
def ctxNoPush : EventContext :=
  { repo_path := "/home/user/notes", auto_push := false }

/-- Two debouncer payloads for the C1 witness. -/
def ctxA : EventContext :=
  { repo_path := "/home/user/notes", auto_push := true }

/-- Second payload, distinguishable from `ctxA`. -/
def ctxB : EventContext :=
  { repo_path := "/home/user/other", auto_push := true }

/-- A repository whose status read succeeds with an empty set. -/
def repoEmptyStatus : Repo :=
  { repoA with statusesResult := .ok [] }

/-!
## Theorems
-/

/-- The code-side message over already-filtered category lists coincides
with the spec-side format (summary of non-empty categories in fixed order,
blank line, detail blocks). -/
lemma commitMessageCore_eq (D M A : List StatusEntry) :
    commitMessageCore D M A =
      specSummary [("Deleted", D.map entryPath), ("Modified", M.map entryPath),
        ("Added", A.map entryPath)] ++ "\n\n" ++
      specDetail [("Deleted", D.map entryPath), ("Modified", M.map entryPath),
        ("Added", A.map entryPath)] := by
  cases D <;> cases M <;> cases A <;>
    simp [commitMessageCore, specSummary, specDetail, specBlock, joinSep,
      List.filterMap, List.filter, List.map_map, Function.comp_def]

/-- C2: `get_commit_message` on the status set
`{deleted: [a], modified: [b,c], added: []}` is exactly
`"Deleted 1, Modified 2\n\nDeleted:\n  a\nModified:\n  b\n  c"`, and in
general it equals the spec-side format: a comma-joined summary of
`"<Action> <count>"` in the fixed order Deleted, Modified, Added with
zero-count categories omitted, a blank line, then per-category detail
blocks of two-space-indented paths in the same order. -/
theorem get_commit_message_format :
    (∀ entries : List StatusEntry, get_commit_message entries = specMessage entries)
    ∧ get_commit_message exampleStatuses =
        "Deleted 1, Modified 2\n\nDeleted:\n  a\nModified:\n  b\n  c" := by
  constructor
  · intro entries
    simp only [get_commit_message, specMessage, specCats]
    exact commitMessageCore_eq _ _ _
  · rfl

/-- C9: a firing whose status set is empty creates no commit, raises no
error and no panic, and leaves the repository state unchanged. -/
theorem handle_event_empty_status_noop (repo : Repo) (context : EventContext)
    (h : repo.statusesResult = .ok []) :
    handle_event (.ok repo) context = .ok (.noChanges, some repo) := by
  simp [handle_event, h]

/-- Witness for C9 at a concrete repository with a clean working tree. -/
theorem handle_event_empty_status_noop_witness :
    handle_event (.ok repoEmptyStatus) ctxNoPush = .ok (.noChanges, some repoEmptyStatus) :=
  handle_event_empty_status_noop repoEmptyStatus ctxNoPush rfl

/-- C10: `open_or_create_repo` falls through to `Repository::init` on any
open error, returns an error only when both open and init fail (and then
the init error), and never returns the open error when init succeeds. -/
theorem open_or_create_repo_fallback (o i : Except GitError Repo) :
    (∀ e : GitError, o = .error e → open_or_create_repo o i = i)
    ∧ (∀ e : GitError, open_or_create_repo o i = .error e →
        (∃ eo, o = .error eo) ∧ i = .error e)
    ∧ (∀ (e : GitError) (r : Repo), o = .error e → i = .ok r →
        open_or_create_repo o i = .ok r) := by
  refine ⟨?_, ?_, ?_⟩ <;> cases o <;> simp [open_or_create_repo]

/-- Witness for C10: open fails, init succeeds, the repository (not the
open error) is returned. -/
theorem open_or_create_repo_fallback_witness :
    open_or_create_repo (.error .generic) (.ok repoA) = .ok repoA :=
  (open_or_create_repo_fallback (.error .generic) (.ok repoA)).2.2 .generic repoA rfl rfl

/-- C8 counterexample: an event with an empty path list and kind `modify`
is classified as relevant (`Ok true`, so it triggers the debouncer), even
when the repository ignore oracle would error — the claim says such an
event is never relevant. -/
theorem empty_paths_trigger_counterexample :
    eventTriggers (fun _ => .error .generic) { kind := .modify, paths := [] } = .ok true := rfl

/-- C8 amended: for an event with an empty path list, both path checks
return `false` without consulting the repository, so the event is relevant
exactly when its kind is create, modify or remove. -/
theorem empty_paths_kind_decides
    (check : List (List String) → Except GitError Bool) (k : EventKind) :
    eventTriggers check { kind := k, paths := [] } =
      .ok (was_modification { kind := k, paths := [] }) := by
  cases k <;> rfl

/-- C5: whenever `create_commit` succeeds, the new commit's parents are
exactly the existing head commit (when there is one) and empty otherwise,
and the head reference afterwards points at the new commit. -/
theorem create_commit_parent_and_head
    (repo : Repo) (message : Option String) (c : Commit) (repo2 : Repo)
    (h : create_commit repo message = .ok (c, repo2)) :
    c.parents = (match repo.head with | some p => [p.id] | none => []) ∧
    repo2.head = some c := by
  unfold create_commit at h
  cases hn : repo.config.user_name with
  | none => rw [hn] at h; exact absurd h (by simp)
  | some nv =>
    cases he : repo.config.user_email with
    | none => rw [hn, he] at h; exact absurd h (by simp)
    | some ev =>
      rw [hn, he] at h
      simp only [Except.ok.injEq, Prod.mk.injEq] at h
      obtain ⟨hc, hr⟩ := h
      subst hc
      subst hr
      exact ⟨rfl, rfl⟩

/-- Witness for C5: committing on `repoA` (head at commit 5) yields a
commit with sole parent 5 and moves the head to it. -/
theorem create_commit_parent_and_head_witness :
    commitB.parents = (match repoA.head with | some p => [p.id] | none => []) ∧
    repoA2.head = some commitB :=
  create_commit_parent_and_head repoA (some "m") commitB repoA2 (by decide)

/-- The commit built when both identity entries exist without a value. -/
def commitW : Commit :=
  { id := 9, parents := [5], message := "m",
    authorName := "Watchers", authorEmail := "Watchers", tree := 42 }

/-- `repoBlankIdentity` after that commit. -/
def repoBlank2 : Repo :=
  { repoBlankIdentity with head := some commitW, nextOid := 10 }

/-- C7 (code bug): with the `user.name` entry absent, `create_commit`
returns the lookup error instead of substituting the fallback identity —
the `?` on `config.get_entry("user.name")` fires before the
`unwrap_or("Watchers")` can.  The fallback applies only when the entry
exists but carries no value, as the second conjunct shows. -/
theorem create_commit_identity_required :
    create_commit repoNoName (some "m") = .error .notFound
    ∧ create_commit repoBlankIdentity (some "m") = .ok (commitW, repoBlank2) := by
  exact ⟨rfl, rfl⟩

/-- C3 (code bug): a status-read failure makes `handle_event` panic inside
`get_changed_files` (`.unwrap()` at src/git.rs:153), and a commit-creation
failure makes it panic on the `.unwrap()` at src/git.rs:214 — neither is a
logged, per-firing abort. -/
theorem handle_event_unwrap_panics :
    handle_event (.ok repoBadStatus) ctxNoPush = .panicked "get_changed_files"
    ∧ handle_event (.ok repoNoName) ctxNoPush = .panicked "create_commit" := by
  exact ⟨rfl, rfl⟩

/-- The commit `handle_event` creates on `repoWithSub`. -/
def commitSub : Commit :=
  { id := 9, parents := [5], message := "Added 1\n\nAdded:\n  notes/a.txt",
    authorName := "Alice", authorEmail := "alice@example.com", tree := 42 }

/-- `repoWithSub` after the parent-only commit. -/
def repoWithSub2 : Repo :=
  { repoWithSub with head := some commitSub, nextOid := 10 }

/-- C4 (code bug): on a firing over a repository with one registered
submodule whose working tree has a non-empty status, `handle_event` commits
only the parent repository and leaves the submodule completely untouched —
same state, same head, no submodule commit.  The code never enumerates
submodules (`get_changed_files` carries a `TODO: submodules` comment). -/
theorem handle_event_skips_submodules :
    handle_event (.ok repoWithSub) ctxNoPush = .ok (.committed false none, some repoWithSub2)
    ∧ repoWithSub.submodules = [subDirty]
    ∧ subDirty.statuses ≠ []
    ∧ repoWithSub2.submodules = repoWithSub.submodules
    ∧ repoWithSub2.submodules.map SubmoduleState.headOid =
        repoWithSub.submodules.map SubmoduleState.headOid := by
  exact ⟨rfl, rfl, by decide, rfl, rfl⟩

/-- A slash-free character list has no split. -/
lemma splitFirstSlash_none (l : List Char) (h : '/' ∉ l) :
    splitFirstSlash l = none := by
  induction l with
  | nil => rfl
  | cons c cs ih =>
    have hc : ¬ c = '/' := fun hh => h (by simp [hh])
    have hcs := ih (fun hm => h (List.mem_cons_of_mem _ hm))
    simp [splitFirstSlash, hc, hcs]

/-- Splitting at the first slash of `r ++ '/' :: b` with `r` slash-free
yields `(r, b)`. -/
lemma splitFirstSlash_append (r b : List Char) (h : '/' ∉ r) :
    splitFirstSlash (r ++ '/' :: b) = some (r, b) := by
  induction r with
  | nil => simp [splitFirstSlash]
  | cons c cs ih =>
    have hc : ¬ c = '/' := fun hh => h (by simp [hh])
    have hcs := ih (fun hm => h (List.mem_cons_of_mem _ hm))
    simp [splitFirstSlash, hc, hcs]

/-- `splitn(2, '/')` on a string with a slash: the slash-free prefix and
the whole remainder. -/
lemma splitn2Slash_split (r b : String) (h : '/' ∉ r.data) :
    splitn2Slash (r ++ "/" ++ b) = [r, b] := by
  have hdata : (r ++ "/" ++ b).data = r.data ++ '/' :: b.data := by
    simp [String.data_append]
  simp [splitn2Slash, hdata, splitFirstSlash_append r.data b.data h]

/-- `splitn(2, '/')` on a slash-free string: the string itself. -/
lemma splitn2Slash_noSlash (u : String) (h : '/' ∉ u.data) :
    splitn2Slash u = [u] := by
  simp [splitn2Slash, splitFirstSlash_none u.data h]

/-- C6 counterexample: on local branch `main` with upstream
`origin/feature`, the code's refspec is
`refs/heads/feature:refs/heads/feature` — not the claim's local-branch
refspec `refs/heads/main:refs/heads/main`. -/
theorem push_refspec_counterexample :
    (resolvePush (some "main") (some (some "origin/feature"))).refspec =
      "refs/heads/feature:refs/heads/feature"
    ∧ (resolvePush (some "main") (some (some "origin/feature"))).refspec ≠
      "refs/heads/main:refs/heads/main" := by
  exact ⟨rfl, by decide⟩

/-- C6 amended: an upstream name is split on its first `/` into remote and
remote branch (the remote branch defaulting to the local branch name when
there is no `/`); without an upstream the remote is `origin` and the remote
branch is the local branch name; the refspec carries the resolved remote
branch name on both sides, `refs/heads/<remote_branch>:refs/heads/<remote_branch>`
(which coincides with the local name exactly in the claim's scenarios:
upstream `origin/feature` on branch `feature` pushes
`refs/heads/feature:refs/heads/feature` to `origin`, and no upstream on
branch `main` pushes `refs/heads/main:refs/heads/main` to `origin`). -/
theorem push_resolution_amended (headShorthand : Option String)
    (upstream : Option (Option String)) :
    (upstream = none →
      resolvePush headShorthand upstream =
        { remote := "origin",
          refspec := "refs/heads/" ++ headShorthand.getD "main" ++ ":refs/heads/"
            ++ headShorthand.getD "main" })
    ∧ (∀ r b : String, '/' ∉ r.data → upstream = some (some (r ++ "/" ++ b)) →
        resolvePush headShorthand upstream =
          { remote := r, refspec := "refs/heads/" ++ b ++ ":refs/heads/" ++ b })
    ∧ (∀ u : String, '/' ∉ u.data → upstream = some (some u) →
        resolvePush headShorthand upstream =
          { remote := u,
            refspec := "refs/heads/" ++ headShorthand.getD "main" ++ ":refs/heads/"
              ++ headShorthand.getD "main" })
    ∧ resolvePush (some "feature") (some (some "origin/feature")) =
        { remote := "origin", refspec := "refs/heads/feature:refs/heads/feature" }
    ∧ resolvePush (some "main") none =
        { remote := "origin", refspec := "refs/heads/main:refs/heads/main" } := by
  refine ⟨?_, ?_, ?_, by decide, by decide⟩
  · rintro rfl
    rfl
  · rintro r b hr rfl
    simp [resolvePush, splitn2Slash_split r b hr]
  · rintro u hu rfl
    simp [resolvePush, splitn2Slash_noSlash u hu]

/-- Witness for C6 (amended): upstream `origin/feature` resolves to remote
`origin` and refspec `refs/heads/feature:refs/heads/feature`. -/
theorem push_resolution_amended_witness :
    resolvePush (some "main") (some (some "origin/feature")) =
      { remote := "origin", refspec := "refs/heads/feature:refs/heads/feature" } :=
  (push_resolution_amended (some "main") (some (some "origin/feature"))).2.1
    "origin" "feature" (by decide) (by decide)

/-- The one invocation a state with an armed timer (deadline `d`, payload
`p`) still produces after the remaining trace `events`: the last event's
timer when there is one, the armed timer otherwise. -/
def lastFire (delay d : Nat) (p : EventContext)
    (events : List (Nat × EventContext)) : Nat × EventContext :=
  match lastEvent events with
  | none => (d, p)
  | some l => (l.1 + delay, l.2)

/-- `lastEvent` skips the head of a list with at least two elements. -/
lemma lastEvent_cons_cons (a b : Nat × EventContext)
    (rest : List (Nat × EventContext)) :
    lastEvent (a :: b :: rest) = lastEvent (b :: rest) := rfl

/-- A nonempty trace has a last event. -/
lemma lastEvent_cons (a : Nat × EventContext) (l : List (Nat × EventContext)) :
    ∃ x, lastEvent (a :: l) = some x := by
  induction l generalizing a with
  | nil => exact ⟨a, rfl⟩
  | cons b bs ih =>
    rw [lastEvent_cons_cons]
    exact ih b

/-- A trace of calls that all arrive before the running deadline satisfies
`spacedBelow` step by step, so starting with an armed timer `(d, p)` the
accumulated invocations grow by exactly the final timer's firing. -/
lemma debounce_foldl (delay : Nat) (events : List (Nat × EventContext)) :
    ∀ (d : Nat) (p : EventContext) (F : List (Nat × EventContext)),
      spacedBelow delay d events →
      finishDebounce (events.foldl (stepEvent delay) ⟨some p, some d, F⟩) =
        F ++ [lastFire delay d p events] := by
  induction events with
  | nil =>
    intro d p F _
    simp [finishDebounce, lastFire, lastEvent]
  | cons e rest ih =>
    intro d p F hsp
    obtain ⟨h1, h2⟩ := hsp
    have hstep : stepEvent delay ⟨some p, some d, F⟩ e =
        ⟨some e.2, some (e.1 + delay), F⟩ := by
      simp [stepEvent, Nat.not_le.mpr h1]
    rw [List.foldl_cons, hstep, ih (e.1 + delay) e.2 F h2]
    cases rest with
    | nil => simp [lastFire, lastEvent]
    | cons b bs =>
      obtain ⟨x, hx⟩ := lastEvent_cons b bs
      simp [lastFire, lastEvent_cons_cons, hx]

/-- `closelySpaced` events after the first all arrive before the deadline
the previous call armed. -/
lemma closelySpaced_spacedBelow (delay : Nat) :
    ∀ (a : Nat × EventContext) (l : List (Nat × EventContext)),
      closelySpaced delay (a :: l) → spacedBelow delay (a.1 + delay) l := by
  intro a l
  induction l generalizing a with
  | nil =>
    intro _
    trivial
  | cons b bs ih =>
    intro h
    obtain ⟨_, h2, h3⟩ := h
    exact ⟨h2, ih b h3⟩

/-- C1: for any nonempty trace of `on_event` calls in strictly increasing
time order, each arriving less than the configured delay after the
previous one, the callback is invoked exactly once, with the
`EventContext` of the last call, at the moment one delay after that last
call. -/
theorem debouncer_fires_once_with_last_payload
    (delay : Nat) (events : List (Nat × EventContext)) (l : Nat × EventContext)
    (hlast : lastEvent events = some l) (hsp : closelySpaced delay events) :
    runDebouncer delay events = [(l.1 + delay, l.2)] := by
  cases events with
  | nil => simp [lastEvent] at hlast
  | cons e rest =>
    unfold runDebouncer
    have hstep : stepEvent delay ⟨none, none, []⟩ e =
        ⟨some e.2, some (e.1 + delay), []⟩ := by
      simp [stepEvent]
    rw [List.foldl_cons, hstep,
      debounce_foldl delay rest (e.1 + delay) e.2 []
        (closelySpaced_spacedBelow delay e rest hsp)]
    cases rest with
    | nil =>
      simp [lastEvent] at hlast
      simp [lastFire, lastEvent, hlast]
    | cons b bs =>
      rw [lastEvent_cons_cons] at hlast
      simp [lastFire, hlast]

/-- Witness for C1: two calls 5 time units apart with delay 10 produce a
single invocation, at time 15 with the second payload. -/
theorem debouncer_fires_once_with_last_payload_witness :
    runDebouncer 10 [(0, ctxA), (5, ctxB)] = [(15, ctxB)] :=
  debouncer_fires_once_with_last_payload 10 [(0, ctxA), (5, ctxB)] (5, ctxB)
    rfl ⟨by decide, by decide, trivial⟩

end Watchers
